import Mathlib

/-!
# RemittanceSplit contract — shallow embedding and verification

This file embeds `src/remittance_split/src/lib.rs` (a Soroban smart contract)
in Lean 4 and proves properties of the embedded operations.

Modelling conventions:
* `Address` and `Symbol` are abstract identifiers, modelled as `Nat` and
  `String` respectively.
* The host's instance storage is the record `ContractState`; each storage key
  of the contract (`CONFIG`, `SPLIT`, `NONCES`, `AUDIT`, `REM_SCH`,
  `NEXT_RSCH`, `PAUSED`, `VERSION`, `PAUSE_ADM`, `UPG_ADM`) becomes a field.
  Soroban `Map`s become association lists with first-match lookup and
  in-place replacement on `set`.
* Machine integers are `Nat`/`Int` with explicit range checks where the Rust
  code performs a checked operation (`checked_mul`, `checked_div`,
  `checked_sub` on `i128`, `checked_add` on the `u64` nonce) and where an
  unchecked operation could overflow (`u32` sums and the `u32` schedule
  counter; Soroban contracts are built with overflow checks enabled, so an
  overflowing unchecked addition traps).  `i128` division truncates toward
  zero (`Int.tdiv`).
* `require_auth` is modelled by an `auth : Nat → Bool` predicate passed to
  each entry point: `auth a = true` means address `a` has authorized the
  invocation; a failed `require_auth` is a host trap (`Outcome.trap`).
  Host traps abort execution at the point they occur.
* The ledger environment is `Env` (timestamp).  The remaining instance-storage
  TTL is carried in the `ttl` field of the state; the host primitive
  `extend_ttl(threshold, extend_to)` re-sets the remaining TTL to `extend_to`
  when it is at or below `threshold` (the policy as documented by the
  repository's own tests).
* Contract events (`env.events().publish`) are not modelled: no property here
  concerns events.  Token transfers performed by `distribute_usdc` go to an
  external token contract; they are recorded as a result list of
  `(from, to, amount)` triples.
-/

/-- Rust `i128::MIN`. -/
def I128_MIN : Int := -(2 ^ 127)

/-- Rust `i128::MAX`. -/
def I128_MAX : Int := 2 ^ 127 - 1

/-- Rust `u64::MAX`. -/
def U64_MAX : Nat := 2 ^ 64 - 1

/-- Rust `u32::MAX`. -/
def U32_MAX : Nat := 2 ^ 32 - 1

/-- Rust `i128::checked_mul`. -/
def checked_mul (a b : Int) : Option Int :=
  let r := a * b
  if r < I128_MIN ∨ I128_MAX < r then none else some r

/-- Rust `i128::checked_div` (truncated division; `none` on division by zero
or on the single overflowing case `MIN / -1`, covered by the range check). -/
def checked_div (a b : Int) : Option Int :=
  if b = 0 then none
  else
    let r := Int.tdiv a b
    if r < I128_MIN ∨ I128_MAX < r then none else some r

/-- Rust `i128::checked_sub`. -/
def checked_sub (a b : Int) : Option Int :=
  let r := a - b
  if r < I128_MIN ∨ I128_MAX < r then none else some r

/-- `RemittanceSplitError` (`lib.rs`, `#[contracterror]`). -/
inductive RemittanceSplitError where
  | AlreadyInitialized
  | NotInitialized
  | PercentagesDoNotSumTo100
  | InvalidAmount
  | Overflow
  | Unauthorized
  | InvalidNonce
  | UnsupportedVersion
  | ChecksumMismatch
  | InvalidDueDate
  | ScheduleNotFound
deriving DecidableEq, Repr

/-- Result of invoking a contract entry point: a normal `Result::Ok`, a
normal `Result::Err`, or a host trap (failed `require_auth` / arithmetic
panic). -/
inductive Outcome (α : Type) where
  | ok (a : α)
  | err (e : RemittanceSplitError)
  | trap
deriving DecidableEq, Repr

/-- `SplitConfig` (`lib.rs`). -/
structure SplitConfig where
  owner : Nat
  spending_percent : Nat
  savings_percent : Nat
  bills_percent : Nat
  insurance_percent : Nat
  timestamp : Nat
  initialized : Bool
deriving DecidableEq, Repr

/-- `AuditEntry` (`lib.rs`). -/
structure AuditEntry where
  operation : String
  caller : Nat
  timestamp : Nat
  success : Bool
deriving DecidableEq, Repr

/-- `RemittanceSchedule` (`lib.rs`). -/
structure RemittanceSchedule where
  id : Nat
  owner : Nat
  amount : Int
  next_due : Nat
  interval : Nat
  recurring : Bool
  active : Bool
  created_at : Nat
  last_executed : Option Nat
  missed_count : Nat
deriving DecidableEq, Repr

/-- `ExportSnapshot` (`lib.rs`). -/
structure ExportSnapshot where
  version : Nat
  checksum : Nat
  config : SplitConfig
deriving DecidableEq, Repr

/-- `AccountGroup` (`lib.rs`). -/
structure AccountGroup where
  spending : Nat
  savings : Nat
  bills : Nat
  insurance : Nat
deriving DecidableEq, Repr

/-- First-match lookup in an association list (Soroban `Map::get`). -/
def mapGet {V : Type} : List (Nat × V) → Nat → Option V
  | [], _ => none
  | (k, v) :: rest, key => if k = key then some v else mapGet rest key

/-- Key update in an association list (Soroban `Map::set`): replace the
binding when present, append otherwise. -/
def mapSet {V : Type} : List (Nat × V) → Nat → V → List (Nat × V)
  | [], key, value => [(key, value)]
  | (k, v) :: rest, key, value =>
      if k = key then (key, value) :: rest else (k, v) :: mapSet rest key value

/-- The contract's instance storage plus the remaining instance-storage TTL. -/
structure ContractState where
  config : Option SplitConfig
  split : Option (List Nat)
  nonces : Option (List (Nat × Nat))
  audit : Option (List AuditEntry)
  schedules : Option (List (Nat × RemittanceSchedule))
  next_rsch : Option Nat
  paused : Option Bool
  version : Option Nat
  pause_adm : Option Nat
  upg_adm : Option Nat
  ttl : Nat
deriving DecidableEq, Repr

/-- Ledger environment visible to the contract. -/
structure Env where
  timestamp : Nat
deriving DecidableEq, Repr

-- Constants from `lib.rs`.

def INSTANCE_LIFETIME_THRESHOLD : Nat := 17280

def INSTANCE_BUMP_AMOUNT : Nat := 518400

def SNAPSHOT_VERSION : Nat := 1

def MAX_AUDIT_ENTRIES : Nat := 100

def CONTRACT_VERSION : Nat := 1

namespace RemittanceSplit

/-- `get_pause_admin`. -/
def get_pause_admin (s : ContractState) : Option Nat := s.pause_adm

/-- `get_global_paused`. -/
def get_global_paused (s : ContractState) : Bool := s.paused.getD false

/-- `get_upgrade_admin`. -/
def get_upgrade_admin (s : ContractState) : Option Nat := s.upg_adm

/-- `get_version`. -/
def get_version (s : ContractState) : Nat := s.version.getD CONTRACT_VERSION

/-- `is_paused`. -/
def is_paused (s : ContractState) : Bool := get_global_paused s

/-- `get_split`: the stored `SPLIT` vector, or the hardcoded default. -/
def get_split (s : ContractState) : List Nat := s.split.getD [50, 30, 15, 5]

/-- `get_config`. -/
def get_config (s : ContractState) : Option SplitConfig := s.config

/-- `get_nonce_value`: the stored nonce for an address, defaulting to 0. -/
def get_nonce_value (s : ContractState) (address : Nat) : Nat :=
  match s.nonces with
  | none => 0
  | some m => (mapGet m address).getD 0

/-- `get_nonce`. -/
def get_nonce (s : ContractState) (address : Nat) : Nat := get_nonce_value s address

/-- `increment_nonce`: `checked_add(1)` on the `u64` nonce, then store. -/
def increment_nonce (s : ContractState) (address : Nat) :
    Except RemittanceSplitError ContractState :=
  let current := get_nonce_value s address
  if U64_MAX ≤ current then .error .Overflow
  else
    let nonces := s.nonces.getD []
    .ok { s with nonces := some (mapSet nonces address (current + 1)) }

/-- `compute_checksum`: `u64` wrapping sum of version and the four
percentages, wrapping-multiplied by 31. -/
def compute_checksum (version : Nat) (config : SplitConfig) : Nat :=
  ((version + config.spending_percent + config.savings_percent +
      config.bills_percent + config.insurance_percent) % 2 ^ 64 * 31) % 2 ^ 64

/-- `append_audit`: once the log holds `MAX_AUDIT_ENTRIES` entries, drop the
oldest entry (the Rust loop copies indices `1..len`), then push the new one. -/
def append_audit (env : Env) (s : ContractState) (operation : String)
    (caller : Nat) (success : Bool) : ContractState :=
  let log := s.audit.getD []
  let log := if MAX_AUDIT_ENTRIES ≤ log.length then log.drop 1 else log
  { s with audit := some (log ++ [⟨operation, caller, env.timestamp, success⟩]) }

/-- `extend_instance_ttl`: `extend_ttl(INSTANCE_LIFETIME_THRESHOLD,
INSTANCE_BUMP_AMOUNT)` — re-set the remaining TTL to the bump amount when it
is at or below the threshold. -/
def extend_instance_ttl (s : ContractState) : ContractState :=
  if s.ttl ≤ INSTANCE_LIFETIME_THRESHOLD then { s with ttl := INSTANCE_BUMP_AMOUNT }
  else s

/-- `calculate_split_amounts`: checked percentage arithmetic over the stored
split.  The Rust code `unwrap`s the first three vector entries, so a stored
split shorter than three entries traps.  The `emit_events` flag only controls
event emission, which is not modelled. -/
def calculate_split_amounts (s : ContractState) (total_amount : Int)
    (_emit_events : Bool) : Outcome (Int × Int × Int × Int) :=
  if total_amount ≤ 0 then .err .InvalidAmount
  else
    let split := get_split s
    match (split[0]? : Option Nat), (split[1]? : Option Nat), (split[2]? : Option Nat) with
    | some s0, some s1, some s2 =>
      match (checked_mul total_amount (s0 : Int)).bind (fun n => checked_div n 100) with
      | none => .err .Overflow
      | some spending =>
        match (checked_mul total_amount (s1 : Int)).bind (fun n => checked_div n 100) with
        | none => .err .Overflow
        | some savings =>
          match (checked_mul total_amount (s2 : Int)).bind (fun n => checked_div n 100) with
          | none => .err .Overflow
          | some bills =>
            match (checked_sub total_amount spending).bind
                (fun n => (checked_sub n savings).bind (fun m => checked_sub m bills)) with
            | none => .err .Overflow
            | some insurance => .ok (spending, savings, bills, insurance)
    | _, _, _ => .trap

/-- `calculate_split`. -/
def calculate_split (s : ContractState) (total_amount : Int) : Outcome (List Int) :=
  match calculate_split_amounts s total_amount true with
  | .ok (a, b, c, d) => .ok [a, b, c, d]
  | .err e => .err e
  | .trap => .trap

/-- `get_audit_log`: cursor-based pagination of the audit log. -/
def get_audit_log (s : ContractState) (from_index limit : Nat) : List AuditEntry :=
  let log := s.audit.getD []
  let len := log.length
  let cap := min MAX_AUDIT_ENTRIES limit
  if len ≤ from_index then []
  else
    let last := min (from_index + cap) len
    (List.range' from_index (last - from_index)).filterMap fun i => log[i]?

/-- `set_pause_admin`: owner-only update of the pause admin. -/
def set_pause_admin (auth : Nat → Bool) (s : ContractState) (caller new_admin : Nat) :
    Outcome Unit × ContractState :=
  if auth caller then
    match s.config with
    | none => (.err .NotInitialized, s)
    | some config =>
      if config.owner ≠ caller then (.err .Unauthorized, s)
      else (.ok (), { s with pause_adm := some new_admin })
  else (.trap, s)

/-- `pause`: pause-admin (default owner) sets the global pause flag. -/
def pause (auth : Nat → Bool) (s : ContractState) (caller : Nat) :
    Outcome Unit × ContractState :=
  if auth caller then
    match s.config with
    | none => (.err .NotInitialized, s)
    | some config =>
      let admin := (get_pause_admin s).getD config.owner
      if admin ≠ caller then (.err .Unauthorized, s)
      else (.ok (), { s with paused := some true })
  else (.trap, s)

/-- `unpause`: pause-admin (default owner) clears the global pause flag. -/
def unpause (auth : Nat → Bool) (s : ContractState) (caller : Nat) :
    Outcome Unit × ContractState :=
  if auth caller then
    match s.config with
    | none => (.err .NotInitialized, s)
    | some config =>
      let admin := (get_pause_admin s).getD config.owner
      if admin ≠ caller then (.err .Unauthorized, s)
      else (.ok (), { s with paused := some false })
  else (.trap, s)

/-- `set_upgrade_admin`: owner-only update of the upgrade admin. -/
def set_upgrade_admin (auth : Nat → Bool) (s : ContractState) (caller new_admin : Nat) :
    Outcome Unit × ContractState :=
  if auth caller then
    match s.config with
    | none => (.err .NotInitialized, s)
    | some config =>
      if config.owner ≠ caller then (.err .Unauthorized, s)
      else (.ok (), { s with upg_adm := some new_admin })
  else (.trap, s)

/-- `set_version`: upgrade-admin (default owner) stores the version. -/
def set_version (auth : Nat → Bool) (s : ContractState) (caller new_version : Nat) :
    Outcome Unit × ContractState :=
  if auth caller then
    match s.config with
    | none => (.err .NotInitialized, s)
    | some config =>
      let admin := (get_upgrade_admin s).getD config.owner
      if admin ≠ caller then (.err .Unauthorized, s)
      else (.ok (), { s with version := some new_version })
  else (.trap, s)

/-- `initialize_split`: auth, pause and nonce guards, one-time initialization
of the config and split vector, nonce increment, audit.  The `u32` sum of the
four percentages traps on overflow. -/
def initialize_split (env : Env) (auth : Nat → Bool) (s : ContractState)
    (owner nonce spending_percent savings_percent bills_percent insurance_percent : Nat) :
    Outcome Bool × ContractState :=
  if auth owner then
    if get_global_paused s then (.err .Unauthorized, s)
    else if nonce ≠ get_nonce_value s owner then (.err .InvalidNonce, s)
    else if s.config.isSome then
      (.err .AlreadyInitialized, append_audit env s "init" owner false)
    else
      let total := spending_percent + savings_percent + bills_percent + insurance_percent
      if U32_MAX < total then (.trap, s)
      else if total ≠ 100 then
        (.err .PercentagesDoNotSumTo100, append_audit env s "init" owner false)
      else
        let s := extend_instance_ttl s
        let config : SplitConfig :=
          ⟨owner, spending_percent, savings_percent, bills_percent, insurance_percent,
            env.timestamp, true⟩
        let s := { s with config := some config,
                          split := some [spending_percent, savings_percent,
                                         bills_percent, insurance_percent] }
        match increment_nonce s owner with
        | .error e => (.err e, s)
        | .ok s => (.ok true, append_audit env s "init" owner true)
  else (.trap, s)

/-- `update_split`: auth, pause and nonce guards, owner-only update of the
config percentages and split vector.  (The Rust function checks the nonce but
never increments it.) -/
def update_split (env : Env) (auth : Nat → Bool) (s : ContractState)
    (caller nonce spending_percent savings_percent bills_percent insurance_percent : Nat) :
    Outcome Bool × ContractState :=
  if auth caller then
    if get_global_paused s then (.err .Unauthorized, s)
    else if nonce ≠ get_nonce_value s caller then (.err .InvalidNonce, s)
    else
      match s.config with
      | none => (.err .NotInitialized, s)
      | some config =>
        if config.owner ≠ caller then
          (.err .Unauthorized, append_audit env s "update" caller false)
        else
          let total := spending_percent + savings_percent + bills_percent + insurance_percent
          if U32_MAX < total then (.trap, s)
          else if total ≠ 100 then
            (.err .PercentagesDoNotSumTo100, append_audit env s "update" caller false)
          else
            let s := extend_instance_ttl s
            let config := { config with spending_percent := spending_percent,
                                        savings_percent := savings_percent,
                                        bills_percent := bills_percent,
                                        insurance_percent := insurance_percent }
            let s := { s with config := some config,
                              split := some [spending_percent, savings_percent,
                                             bills_percent, insurance_percent] }
            (.ok true, s)
  else (.trap, s)

/-- `distribute_usdc`: amount guard, auth and nonce guards, split calculation
and token transfers (returned as `(from, to, amount)` triples; the token is an
external contract assumed to accept them), nonce increment, audit. -/
def distribute_usdc (env : Env) (auth : Nat → Bool) (s : ContractState)
    (_usdc_contract sender nonce : Nat) (accounts : AccountGroup) (total_amount : Int) :
    Outcome Bool × ContractState × List (Nat × Nat × Int) :=
  if total_amount ≤ 0 then
    (.err .InvalidAmount, append_audit env s "distrib" sender false, [])
  else if auth sender then
    if nonce ≠ get_nonce_value s sender then (.err .InvalidNonce, s, [])
    else
      match calculate_split_amounts s total_amount false with
      | .err e => (.err e, s, [])
      | .trap => (.trap, s, [])
      | .ok (a0, a1, a2, a3) =>
        let transfers :=
          (if 0 < a0 then [(sender, accounts.spending, a0)] else []) ++
          (if 0 < a1 then [(sender, accounts.savings, a1)] else []) ++
          (if 0 < a2 then [(sender, accounts.bills, a2)] else []) ++
          (if 0 < a3 then [(sender, accounts.insurance, a3)] else [])
        match increment_nonce s sender with
        | .error e => (.err e, s, transfers)
        | .ok s => (.ok true, append_audit env s "distrib" sender true, transfers)
  else (.trap, s, [])

/-- `export_snapshot`: owner-only read-back of the stored config, stamped with
the snapshot version and its checksum. -/
def export_snapshot (auth : Nat → Bool) (s : ContractState) (caller : Nat) :
    Outcome (Option ExportSnapshot) :=
  if auth caller then
    match s.config with
    | none => .err .NotInitialized
    | some config =>
      if config.owner ≠ caller then .err .Unauthorized
      else .ok (some ⟨SNAPSHOT_VERSION, compute_checksum SNAPSHOT_VERSION config, config⟩)
  else .trap

/-- `import_snapshot`: auth and nonce guards, version and checksum
verification, owner check against the existing config, percentage-sum check
(`u32` sum traps on overflow), then store-back, nonce increment and audit. -/
def import_snapshot (env : Env) (auth : Nat → Bool) (s : ContractState)
    (caller nonce : Nat) (snapshot : ExportSnapshot) :
    Outcome Bool × ContractState :=
  if auth caller then
    if nonce ≠ get_nonce_value s caller then (.err .InvalidNonce, s)
    else if snapshot.version ≠ SNAPSHOT_VERSION then
      (.err .UnsupportedVersion, append_audit env s "import" caller false)
    else if snapshot.checksum ≠ compute_checksum snapshot.version snapshot.config then
      (.err .ChecksumMismatch, append_audit env s "import" caller false)
    else
      match s.config with
      | none => (.err .NotInitialized, s)
      | some existing =>
        if existing.owner ≠ caller then
          (.err .Unauthorized, append_audit env s "import" caller false)
        else
          let total := snapshot.config.spending_percent + snapshot.config.savings_percent +
            snapshot.config.bills_percent + snapshot.config.insurance_percent
          if U32_MAX < total then (.trap, s)
          else if total ≠ 100 then
            (.err .PercentagesDoNotSumTo100, append_audit env s "import" caller false)
          else
            let s := extend_instance_ttl s
            let s := { s with config := some snapshot.config,
                              split := some [snapshot.config.spending_percent,
                                             snapshot.config.savings_percent,
                                             snapshot.config.bills_percent,
                                             snapshot.config.insurance_percent] }
            match increment_nonce s caller with
            | .error e => (.err e, s)
            | .ok s => (.ok true, append_audit env s "import" caller true)
  else (.trap, s)

/-- `create_remittance_schedule`: auth, amount and due-date guards, TTL bump,
new schedule stored under the incremented `NEXT_RSCH` counter.  The unchecked
`u32` increment of the counter traps on overflow. -/
def create_remittance_schedule (env : Env) (auth : Nat → Bool) (s : ContractState)
    (owner : Nat) (amount : Int) (next_due interval : Nat) :
    Outcome Nat × ContractState :=
  if auth owner then
    if amount ≤ 0 then (.err .InvalidAmount, s)
    else if next_due ≤ env.timestamp then (.err .InvalidDueDate, s)
    else
      let s := extend_instance_ttl s
      let schedules := s.schedules.getD []
      if U32_MAX ≤ s.next_rsch.getD 0 then (.trap, s)
      else
        let next_schedule_id := s.next_rsch.getD 0 + 1
        let schedule : RemittanceSchedule :=
          ⟨next_schedule_id, owner, amount, next_due, interval, decide (0 < interval),
            true, env.timestamp, none, 0⟩
        (.ok next_schedule_id,
          { s with schedules := some (mapSet schedules next_schedule_id schedule),
                   next_rsch := some next_schedule_id })
  else (.trap, s)

/-- `modify_remittance_schedule`: auth, amount and due-date guards, TTL bump,
then owner-gated update of an existing schedule. -/
def modify_remittance_schedule (env : Env) (auth : Nat → Bool) (s : ContractState)
    (caller schedule_id : Nat) (amount : Int) (next_due interval : Nat) :
    Outcome Bool × ContractState :=
  if auth caller then
    if amount ≤ 0 then (.err .InvalidAmount, s)
    else if next_due ≤ env.timestamp then (.err .InvalidDueDate, s)
    else
      let s := extend_instance_ttl s
      let schedules := s.schedules.getD []
      match mapGet schedules schedule_id with
      | none => (.err .ScheduleNotFound, s)
      | some schedule =>
        if schedule.owner ≠ caller then (.err .Unauthorized, s)
        else
          let schedule := { schedule with amount := amount, next_due := next_due,
                                          interval := interval,
                                          recurring := decide (0 < interval) }
          (.ok true, { s with schedules := some (mapSet schedules schedule_id schedule) })
  else (.trap, s)

/-- `cancel_remittance_schedule`: auth guard, TTL bump, then owner-gated
deactivation of an existing schedule. -/
def cancel_remittance_schedule (auth : Nat → Bool) (s : ContractState)
    (caller schedule_id : Nat) : Outcome Bool × ContractState :=
  if auth caller then
    let s := extend_instance_ttl s
    let schedules := s.schedules.getD []
    match mapGet schedules schedule_id with
    | none => (.err .ScheduleNotFound, s)
    | some schedule =>
      if schedule.owner ≠ caller then (.err .Unauthorized, s)
      else
        let schedule := { schedule with active := false }
        (.ok true, { s with schedules := some (mapSet schedules schedule_id schedule) })
  else (.trap, s)

/-- `get_remittance_schedules`: all schedules owned by `owner`, in map order. -/
def get_remittance_schedules (s : ContractState) (owner : Nat) : List RemittanceSchedule :=
  ((s.schedules.getD []).map Prod.snd).filter fun schedule => schedule.owner = owner

/-- `get_remittance_schedule`. -/
def get_remittance_schedule (s : ContractState) (schedule_id : Nat) :
    Option RemittanceSchedule :=
  mapGet (s.schedules.getD []) schedule_id

end RemittanceSplit

namespace RemittanceSplit

/-! ## Fixtures: concrete inputs used by witnesses and counterexamples -/

/-- Ledger at timestamp 1000. -/
def envA : Env := ⟨1000⟩

/-- Every address has authorized. -/
def authAll : Nat → Bool := fun _ => true

/-- No address has authorized. -/
def authNone : Nat → Bool := fun _ => false

/-- Fresh contract: nothing stored yet, remaining TTL 100. -/
def stEmpty : ContractState :=
  ⟨none, none, none, none, none, none, none, none, none, none, 100⟩

/-- Initialized contract: owner 1 with split 50/30/15/5, nonce of owner 1
already at 1, comfortable TTL. -/
def stA : ContractState :=
  ⟨some ⟨1, 50, 30, 15, 5, 900, true⟩, some [50, 30, 15, 5], some [(1, 1)],
    none, none, none, none, none, none, none, 518400⟩

/-- Initialized contract with split 40/30/20/10 and remaining TTL 0 (at or
below the extension threshold). -/
def stB : ContractState :=
  ⟨some ⟨1, 40, 30, 20, 10, 900, true⟩, some [40, 30, 20, 10], some [(1, 1)],
    none, none, none, none, none, none, none, 0⟩

/-- Destination accounts for distribution. -/
def accA : AccountGroup := ⟨10, 11, 12, 13⟩

/-! ## Helper lemmas -/

lemma mapGet_mapSet_self {V : Type} (m : List (Nat × V)) (k : Nat) (v : V) :
    mapGet (mapSet m k v) k = some v := by
  induction m with
  | nil => simp [mapGet, mapSet]
  | cons head rest ih =>
    obtain ⟨k', v'⟩ := head
    by_cases h : k' = k <;> simp [mapGet, mapSet, h, ih]

@[simp] lemma append_audit_config (env : Env) (s : ContractState) (op : String)
    (c : Nat) (b : Bool) : (append_audit env s op c b).config = s.config := rfl

@[simp] lemma append_audit_split (env : Env) (s : ContractState) (op : String)
    (c : Nat) (b : Bool) : (append_audit env s op c b).split = s.split := rfl

@[simp] lemma append_audit_nonces (env : Env) (s : ContractState) (op : String)
    (c : Nat) (b : Bool) : (append_audit env s op c b).nonces = s.nonces := rfl

@[simp] lemma append_audit_schedules (env : Env) (s : ContractState) (op : String)
    (c : Nat) (b : Bool) : (append_audit env s op c b).schedules = s.schedules := rfl

@[simp] lemma append_audit_ttl (env : Env) (s : ContractState) (op : String)
    (c : Nat) (b : Bool) : (append_audit env s op c b).ttl = s.ttl := rfl

@[simp] lemma extend_instance_ttl_config (s : ContractState) :
    (extend_instance_ttl s).config = s.config := by
  unfold extend_instance_ttl; split <;> rfl

@[simp] lemma extend_instance_ttl_split (s : ContractState) :
    (extend_instance_ttl s).split = s.split := by
  unfold extend_instance_ttl; split <;> rfl

@[simp] lemma extend_instance_ttl_nonces (s : ContractState) :
    (extend_instance_ttl s).nonces = s.nonces := by
  unfold extend_instance_ttl; split <;> rfl

@[simp] lemma extend_instance_ttl_audit (s : ContractState) :
    (extend_instance_ttl s).audit = s.audit := by
  unfold extend_instance_ttl; split <;> rfl

@[simp] lemma extend_instance_ttl_schedules (s : ContractState) :
    (extend_instance_ttl s).schedules = s.schedules := by
  unfold extend_instance_ttl; split <;> rfl

@[simp] lemma extend_instance_ttl_next_rsch (s : ContractState) :
    (extend_instance_ttl s).next_rsch = s.next_rsch := by
  unfold extend_instance_ttl; split <;> rfl

lemma extend_instance_ttl_ttl (s : ContractState) :
    (extend_instance_ttl s).ttl =
      if s.ttl ≤ INSTANCE_LIFETIME_THRESHOLD then INSTANCE_BUMP_AMOUNT else s.ttl := by
  unfold extend_instance_ttl; split <;> simp_all

lemma increment_nonce_eq (s : ContractState) (a : Nat) :
    increment_nonce s a =
      if U64_MAX ≤ get_nonce_value s a then .error .Overflow
      else
        .ok { s with
              nonces := some (mapSet (s.nonces.getD []) a (get_nonce_value s a + 1)) } := rfl

lemma increment_nonce_ok (s s' : ContractState) (a : Nat)
    (h : increment_nonce s a = .ok s') :
    s' = { s with nonces := some (mapSet (s.nonces.getD []) a (get_nonce_value s a + 1)) } := by
  rw [increment_nonce_eq] at h
  split at h
  · simp at h
  · injection h with h2
    exact h2.symm

lemma get_nonce_value_increment (s s' : ContractState) (a : Nat)
    (h : increment_nonce s a = .ok s') :
    get_nonce_value s' a = get_nonce_value s a + 1 := by
  rw [increment_nonce_ok s s' a h]
  simp [get_nonce_value, mapGet_mapSet_self]

/-! ## Claim C2: nonce mismatch is rejected without touching storage -/

/-- Claim C2: for each nonce-guarded operation — `initialize_split` and
`update_split` (contract not paused), `distribute_usdc` (positive
`total_amount`), and `import_snapshot` — a provided nonce different from the
stored nonce of the authorizing address makes the call fail with
`InvalidNonce` and leaves the whole contract storage unchanged. -/
theorem nonce_mismatch_rejects_and_preserves_state :
    (∀ env auth s owner nonce a b c d, auth owner = true → get_global_paused s = false →
      nonce ≠ get_nonce_value s owner →
      initialize_split env auth s owner nonce a b c d =
        (.err .InvalidNonce, s)) ∧
    (∀ env auth s caller nonce a b c d, auth caller = true → get_global_paused s = false →
      nonce ≠ get_nonce_value s caller →
      update_split env auth s caller nonce a b c d =
        (.err .InvalidNonce, s)) ∧
    (∀ env auth s usdc sender nonce accounts total_amount, (0 : Int) < total_amount →
      auth sender = true → nonce ≠ get_nonce_value s sender →
      distribute_usdc env auth s usdc sender nonce accounts total_amount =
        (.err .InvalidNonce, s, [])) ∧
    (∀ env auth s caller nonce snapshot, auth caller = true →
      nonce ≠ get_nonce_value s caller →
      import_snapshot env auth s caller nonce snapshot =
        (.err .InvalidNonce, s)) := by
  refine ⟨?_, ?_, ?_, ?_⟩
  · intro env auth s owner nonce a b c d hauth hpause hnonce
    simp [initialize_split, hauth, hpause, hnonce]
  · intro env auth s caller nonce a b c d hauth hpause hnonce
    simp [update_split, hauth, hpause, hnonce]
  · intro env auth s usdc sender nonce accounts total_amount hpos hauth hnonce
    simp [distribute_usdc, hauth, hnonce, not_le.mpr hpos]
  · intro env auth s caller nonce snapshot hauth hnonce
    simp [import_snapshot, hauth, hnonce]

/-- Witness for C2: a concrete mismatching nonce on the initialized fixture
state is rejected by `initialize_split` with the state returned untouched. -/
theorem nonce_mismatch_rejects_and_preserves_state_witness :
    authAll 1 = true ∧ get_global_paused stEmpty = false ∧
    (5 : Nat) ≠ get_nonce_value stEmpty 1 ∧
    initialize_split envA authAll stEmpty 1 5 50 30 15 5 =
      (.err .InvalidNonce, stEmpty) :=
  ⟨by decide, by decide, by decide,
    nonce_mismatch_rejects_and_preserves_state.1 envA authAll stEmpty 1 5 50 30 15 5
      (by decide) (by decide) (by decide)⟩

/-! ## Claim C1: nonce increment on success (code bug in `update_split`) -/

/-- Claim C1, failing evaluation: `update_split` requires the correct nonce
but never increments it.  On the initialized fixture (owner 1, stored nonce
1) a successful `update_split` with nonce 1 returns `Ok` yet leaves the
stored nonce at 1, and the very same call replays successfully — the code
contradicts the nonce's documented replay-protection purpose, while
`initialize_split`, `distribute_usdc` and `import_snapshot` do increment. -/
theorem update_split_does_not_increment_nonce :
    (update_split envA authAll stA 1 1 40 30 20 10).fst = .ok true ∧
    get_nonce_value (update_split envA authAll stA 1 1 40 30 20 10).snd 1 = 1 ∧
    (update_split envA authAll (update_split envA authAll stA 1 1 40 30 20 10).snd
        1 1 40 30 20 10).fst = .ok true := by
  decide

/-! ## Claim C5: authorization gating (corrected: getters are ungated) -/

set_option maxRecDepth 10000

/-- Claim C5, counterexample: `calculate_split` is a public entry point that
takes no acting address and calls no `require_auth`, yet reads the contract's
stored split (the result reflects the stored 40/30/20/10 vector of `stB`, not
the 50/30/15/5 default), so not every entry point is gated by a host
authorization check before its storage read. -/
theorem calculate_split_reads_storage_without_auth :
    stB.split = some [40, 30, 20, 10] ∧
    calculate_split stB 1000 = .ok [400, 300, 200, 100] := by
  refine ⟨rfl, ?_⟩
  decide

/-- Claim C5 as amended: every mutating entry point (`initialize_split`,
`update_split`, `import_snapshot`, `distribute_usdc` with positive amount,
the three schedule operations, `pause`, `unpause`, `set_version`,
`set_pause_admin`, `set_upgrade_admin`) requires `require_auth` of the acting
address before any storage write: an unauthorized caller traps with the
state unchanged.  Read-only entry points (`get_split`, `get_config`,
`calculate_split`, `get_nonce`, `get_audit_log`, `is_paused`, `get_version`,
the schedule getters) perform no authorization check. -/
theorem mutating_entry_points_require_auth :
    (∀ env auth s owner nonce a b c d, auth owner = false →
      initialize_split env auth s owner nonce a b c d = (.trap, s)) ∧
    (∀ env auth s caller nonce a b c d, auth caller = false →
      update_split env auth s caller nonce a b c d = (.trap, s)) ∧
    (∀ env auth s caller nonce snapshot, auth caller = false →
      import_snapshot env auth s caller nonce snapshot = (.trap, s)) ∧
    (∀ env auth s usdc sender nonce accounts total_amount, (0 : Int) < total_amount →
      auth sender = false →
      distribute_usdc env auth s usdc sender nonce accounts total_amount =
        (.trap, s, [])) ∧
    (∀ env auth s owner amount next_due interval, auth owner = false →
      create_remittance_schedule env auth s owner amount next_due interval = (.trap, s)) ∧
    (∀ env auth s caller id amount next_due interval, auth caller = false →
      modify_remittance_schedule env auth s caller id amount next_due interval = (.trap, s)) ∧
    (∀ auth s caller id, auth caller = false →
      cancel_remittance_schedule auth s caller id = (.trap, s)) ∧
    (∀ auth s caller, auth caller = false → pause auth s caller = (.trap, s)) ∧
    (∀ auth s caller, auth caller = false → unpause auth s caller = (.trap, s)) ∧
    (∀ auth s caller v, auth caller = false → set_version auth s caller v = (.trap, s)) ∧
    (∀ auth s caller a, auth caller = false → set_pause_admin auth s caller a = (.trap, s)) ∧
    (∀ auth s caller a, auth caller = false → set_upgrade_admin auth s caller a = (.trap, s)) := by
  refine ⟨?_, ?_, ?_, ?_, ?_, ?_, ?_, ?_, ?_, ?_, ?_, ?_⟩ <;> intros <;>
    simp_all [initialize_split, update_split, import_snapshot, distribute_usdc,
      create_remittance_schedule, modify_remittance_schedule,
      cancel_remittance_schedule, pause, unpause, set_version, set_pause_admin,
      set_upgrade_admin]

/-- Witness for the amended C5: an unauthorized `initialize_split` on the
fresh fixture state traps. -/
theorem mutating_entry_points_require_auth_witness :
    authNone 1 = false ∧
    initialize_split envA authNone stEmpty 1 0 50 30 15 5 = (.trap, stEmpty) :=
  ⟨by decide,
    mutating_entry_points_require_auth.1 envA authNone stEmpty 1 0 50 30 15 5 (by decide)⟩

/-! ## Claim C4: TTL extension policy (corrected: six operations, not all) -/

/-- Claim C4, counterexample: `distribute_usdc` is a mutating operation (it
writes the nonce map and the audit log) that never calls
`extend_instance_ttl`: on fixture `stB`, whose remaining TTL 0 is at or below
the threshold 17280, a successful distribution returns `Ok` and leaves the
TTL at 0 instead of extending it to 518400.  (`pause`, `unpause`,
`set_version`, `set_pause_admin` and `set_upgrade_admin` do not call it
either.) -/
theorem distribute_usdc_skips_ttl_extension :
    stB.ttl ≤ INSTANCE_LIFETIME_THRESHOLD ∧
    (distribute_usdc envA authAll stB 99 1 1 accA 1000).fst = .ok true ∧
    (distribute_usdc envA authAll stB 99 1 1 accA 1000).2.1.ttl = 0 := by
  refine ⟨by decide, ?_, ?_⟩ <;> decide

/-- Claim C4 as amended: exactly the six operations `initialize_split`,
`update_split`, `import_snapshot`, `create_remittance_schedule`,
`modify_remittance_schedule` and `cancel_remittance_schedule` re-apply the
threshold/bump TTL policy: whenever one of them returns `Ok`, the remaining
instance-storage TTL of the resulting state is 518400 if the incoming TTL was
at or below the threshold 17280, and is unchanged otherwise. -/
theorem ttl_policy_reapplied_on_extending_ops :
    (∀ env auth s owner nonce a b c d r s2,
      initialize_split env auth s owner nonce a b c d = (.ok r, s2) →
      s2.ttl = if s.ttl ≤ INSTANCE_LIFETIME_THRESHOLD then INSTANCE_BUMP_AMOUNT else s.ttl) ∧
    (∀ env auth s caller nonce a b c d r s2,
      update_split env auth s caller nonce a b c d = (.ok r, s2) →
      s2.ttl = if s.ttl ≤ INSTANCE_LIFETIME_THRESHOLD then INSTANCE_BUMP_AMOUNT else s.ttl) ∧
    (∀ env auth s caller nonce snapshot r s2,
      import_snapshot env auth s caller nonce snapshot = (.ok r, s2) →
      s2.ttl = if s.ttl ≤ INSTANCE_LIFETIME_THRESHOLD then INSTANCE_BUMP_AMOUNT else s.ttl) ∧
    (∀ env auth s owner amount next_due interval r s2,
      create_remittance_schedule env auth s owner amount next_due interval = (.ok r, s2) →
      s2.ttl = if s.ttl ≤ INSTANCE_LIFETIME_THRESHOLD then INSTANCE_BUMP_AMOUNT else s.ttl) ∧
    (∀ env auth s caller id amount next_due interval r s2,
      modify_remittance_schedule env auth s caller id amount next_due interval = (.ok r, s2) →
      s2.ttl = if s.ttl ≤ INSTANCE_LIFETIME_THRESHOLD then INSTANCE_BUMP_AMOUNT else s.ttl) ∧
    (∀ auth s caller id r s2,
      cancel_remittance_schedule auth s caller id = (.ok r, s2) →
      s2.ttl = if s.ttl ≤ INSTANCE_LIFETIME_THRESHOLD then INSTANCE_BUMP_AMOUNT else s.ttl) := by
  refine ⟨?_, ?_, ?_, ?_, ?_, ?_⟩
  · intro env auth s owner nonce a b c d r s2 h
    unfold initialize_split at h
    simp only [] at h
    split at h
    case isFalse => simp_all
    split at h
    case isTrue => simp_all
    split at h
    case isTrue => simp_all
    split at h
    case isTrue => simp_all
    split at h
    case isTrue => simp_all
    split at h
    case isTrue => simp_all
    split at h
    case h_1 => simp_all
    rename_i s3 heq
    have h3 := increment_nonce_ok _ _ _ heq
    subst h3
    simp only [Prod.mk.injEq] at h
    obtain ⟨-, h2⟩ := h
    subst h2
    simp [extend_instance_ttl_ttl]
  · intro env auth s caller nonce a b c d r s2 h
    unfold update_split at h
    simp only [] at h
    split at h
    case isFalse => simp_all
    split at h
    case isTrue => simp_all
    split at h
    case isTrue => simp_all
    split at h
    case h_1 => simp_all
    split at h
    case isTrue => simp_all
    split at h
    case isTrue => simp_all
    split at h
    case isTrue => simp_all
    simp only [Prod.mk.injEq] at h
    obtain ⟨-, h2⟩ := h
    subst h2
    simp [extend_instance_ttl_ttl]
  · intro env auth s caller nonce snapshot r s2 h
    unfold import_snapshot at h
    simp only [] at h
    split at h
    case isFalse => simp_all
    split at h
    case isTrue => simp_all
    split at h
    case isTrue => simp_all
    split at h
    case isTrue => simp_all
    split at h
    case h_1 => simp_all
    split at h
    case isTrue => simp_all
    split at h
    case isTrue => simp_all
    split at h
    case isTrue => simp_all
    split at h
    case h_1 => simp_all
    rename_i s3 heq
    have h3 := increment_nonce_ok _ _ _ heq
    subst h3
    simp only [Prod.mk.injEq] at h
    obtain ⟨-, h2⟩ := h
    subst h2
    simp [extend_instance_ttl_ttl]
  · intro env auth s owner amount next_due interval r s2 h
    unfold create_remittance_schedule at h
    simp only [] at h
    split at h
    case isFalse => simp_all
    split at h
    case isTrue => simp_all
    split at h
    case isTrue => simp_all
    split at h
    case isTrue => simp_all
    simp only [Prod.mk.injEq] at h
    obtain ⟨-, h2⟩ := h
    subst h2
    simp [extend_instance_ttl_ttl]
  · intro env auth s caller id amount next_due interval r s2 h
    unfold modify_remittance_schedule at h
    simp only [] at h
    split at h
    case isFalse => simp_all
    split at h
    case isTrue => simp_all
    split at h
    case isTrue => simp_all
    split at h
    case h_1 => simp_all
    split at h
    case isTrue => simp_all
    simp only [Prod.mk.injEq] at h
    obtain ⟨-, h2⟩ := h
    subst h2
    simp [extend_instance_ttl_ttl]
  · intro auth s caller id r s2 h
    unfold cancel_remittance_schedule at h
    simp only [] at h
    split at h
    case isFalse => simp_all
    split at h
    case h_1 => simp_all
    split at h
    case isTrue => simp_all
    simp only [Prod.mk.injEq] at h
    obtain ⟨-, h2⟩ := h
    subst h2
    simp [extend_instance_ttl_ttl]

/-- Witness for the amended C4: a concrete successful `initialize_split` on
the fresh fixture state (incoming TTL 100 ≤ 17280) leaves the TTL at the bump
amount 518400. -/
theorem ttl_policy_reapplied_on_extending_ops_witness :
    ((initialize_split envA authAll stEmpty 1 0 50 30 15 5).snd).ttl =
      if stEmpty.ttl ≤ INSTANCE_LIFETIME_THRESHOLD then INSTANCE_BUMP_AMOUNT
      else stEmpty.ttl :=
  ttl_policy_reapplied_on_extending_ops.1 envA authAll stEmpty 1 0 50 30 15 5 true
    (initialize_split envA authAll stEmpty 1 0 50 30 15 5).snd (by decide)

/-! ## Claim C6: monotonically increasing schedule IDs -/

lemma create_remittance_schedule_ok (env : Env) (auth : Nat → Bool) (s : ContractState)
    (owner : Nat) (amount : Int) (next_due interval id : Nat) (s1 : ContractState)
    (h : create_remittance_schedule env auth s owner amount next_due interval = (.ok id, s1)) :
    id = s.next_rsch.getD 0 + 1 ∧ s1.next_rsch = some id ∧
    get_remittance_schedule s1 id =
      some ⟨id, owner, amount, next_due, interval, decide (0 < interval), true,
        env.timestamp, none, 0⟩ := by
  unfold create_remittance_schedule at h
  simp only [] at h
  split at h
  case isFalse => simp_all
  split at h
  case isTrue => simp_all
  split at h
  case isTrue => simp_all
  split at h
  case isTrue => simp_all
  simp only [Prod.mk.injEq, Outcome.ok.injEq] at h
  obtain ⟨h1, h2⟩ := h
  subst h2
  subst h1
  refine ⟨by simp, by simp, ?_⟩
  simp [get_remittance_schedule, mapGet_mapSet_self]

/-- Claim C6: a successful `create_remittance_schedule` returns the stored
`NEXT_RSCH` counter plus one, stores that value back as the new counter, and
stores the new schedule under the returned ID; consequently a second
successful creation returns the strictly larger ID `id + 1`, so IDs are
issued monotonically and never reused for a different schedule. -/
theorem schedule_counter_monotonic :
    ∀ env auth s owner amount next_due interval id s1,
      create_remittance_schedule env auth s owner amount next_due interval = (.ok id, s1) →
      id = s.next_rsch.getD 0 + 1 ∧ s1.next_rsch = some id ∧
      get_remittance_schedule s1 id =
        some ⟨id, owner, amount, next_due, interval, decide (0 < interval), true,
          env.timestamp, none, 0⟩ ∧
      ∀ env2 auth2 owner2 amount2 next_due2 interval2 id2 s2,
        create_remittance_schedule env2 auth2 s1 owner2 amount2 next_due2 interval2 =
          (.ok id2, s2) → id2 = id + 1 := by
  intro env auth s owner amount next_due interval id s1 h
  obtain ⟨h1, h2, h3⟩ := create_remittance_schedule_ok env auth s owner amount
    next_due interval id s1 h
  refine ⟨h1, h2, h3, ?_⟩
  intro env2 auth2 owner2 amount2 next_due2 interval2 id2 s2 h4
  have h5 := (create_remittance_schedule_ok env2 auth2 s1 owner2 amount2
    next_due2 interval2 id2 s2 h4).1
  rw [h5, h2]
  simp

/-- Witness for C6: creating a schedule on the fresh fixture returns ID 1
(counter 0 plus one) and stores it back. -/
theorem schedule_counter_monotonic_witness :
    (1 : Nat) = stEmpty.next_rsch.getD 0 + 1 ∧
    ((create_remittance_schedule envA authAll stEmpty 1 500 2000 0).snd).next_rsch =
      some 1 ∧
    get_remittance_schedule (create_remittance_schedule envA authAll stEmpty 1 500 2000 0).snd 1 =
      some ⟨1, 1, 500, 2000, 0, decide (0 < 0), true, envA.timestamp, none, 0⟩ ∧
    ∀ env2 auth2 owner2 amount2 next_due2 interval2 id2 s2,
      create_remittance_schedule env2 auth2
          (create_remittance_schedule envA authAll stEmpty 1 500 2000 0).snd
          owner2 amount2 next_due2 interval2 = (.ok id2, s2) → id2 = 1 + 1 :=
  schedule_counter_monotonic envA authAll stEmpty 1 500 2000 0 1
    (create_remittance_schedule envA authAll stEmpty 1 500 2000 0).snd (by decide)

/-! ## Claim C8: owner-gated schedule modification and cancellation -/

/-- Claim C8: with valid arguments (`amount > 0`, `next_due` in the future),
`modify_remittance_schedule` and `cancel_remittance_schedule` fail with
`ScheduleNotFound` when no schedule carries the requested ID and with
`Unauthorized` when the caller is not the stored schedule's owner, leaving
the schedules map unchanged in both error cases; a call by the stored owner
succeeds and stores the updated (resp. deactivated) schedule. -/
theorem schedule_ops_owner_gated :
    (∀ env auth s caller id amount next_due interval,
      auth caller = true → (0 : Int) < amount → env.timestamp < next_due →
      mapGet (s.schedules.getD []) id = none →
      (modify_remittance_schedule env auth s caller id amount next_due interval).fst =
        .err .ScheduleNotFound ∧
      (modify_remittance_schedule env auth s caller id amount next_due interval).snd.schedules =
        s.schedules) ∧
    (∀ env auth s caller id amount next_due interval sched,
      auth caller = true → (0 : Int) < amount → env.timestamp < next_due →
      mapGet (s.schedules.getD []) id = some sched → sched.owner ≠ caller →
      (modify_remittance_schedule env auth s caller id amount next_due interval).fst =
        .err .Unauthorized ∧
      (modify_remittance_schedule env auth s caller id amount next_due interval).snd.schedules =
        s.schedules) ∧
    (∀ env auth s caller id amount next_due interval sched,
      auth caller = true → (0 : Int) < amount → env.timestamp < next_due →
      mapGet (s.schedules.getD []) id = some sched → sched.owner = caller →
      (modify_remittance_schedule env auth s caller id amount next_due interval).fst =
        .ok true ∧
      get_remittance_schedule
          (modify_remittance_schedule env auth s caller id amount next_due interval).snd id =
        some { sched with amount := amount, next_due := next_due, interval := interval,
                          recurring := decide (0 < interval) }) ∧
    (∀ auth s caller id, auth caller = true →
      mapGet (s.schedules.getD []) id = none →
      (cancel_remittance_schedule auth s caller id).fst = .err .ScheduleNotFound ∧
      (cancel_remittance_schedule auth s caller id).snd.schedules = s.schedules) ∧
    (∀ auth s caller id sched, auth caller = true →
      mapGet (s.schedules.getD []) id = some sched → sched.owner ≠ caller →
      (cancel_remittance_schedule auth s caller id).fst = .err .Unauthorized ∧
      (cancel_remittance_schedule auth s caller id).snd.schedules = s.schedules) ∧
    (∀ auth s caller id sched, auth caller = true →
      mapGet (s.schedules.getD []) id = some sched → sched.owner = caller →
      (cancel_remittance_schedule auth s caller id).fst = .ok true ∧
      get_remittance_schedule (cancel_remittance_schedule auth s caller id).snd id =
        some { sched with active := false }) := by
  refine ⟨?_, ?_, ?_, ?_, ?_, ?_⟩
  · intro env auth s caller id amount next_due interval hauth hamt hdue hmg
    constructor <;>
      simp [modify_remittance_schedule, hauth, hmg, not_le.mpr hamt, not_le.mpr hdue]
  · intro env auth s caller id amount next_due interval sched hauth hamt hdue hmg howner
    constructor <;>
      simp [modify_remittance_schedule, hauth, hmg, howner, not_le.mpr hamt, not_le.mpr hdue]
  · intro env auth s caller id amount next_due interval sched hauth hamt hdue hmg howner
    constructor <;>
      simp [modify_remittance_schedule, get_remittance_schedule, hauth, hmg, howner,
        not_le.mpr hamt, not_le.mpr hdue, mapGet_mapSet_self]
  · intro auth s caller id hauth hmg
    constructor <;> simp [cancel_remittance_schedule, hauth, hmg]
  · intro auth s caller id sched hauth hmg howner
    constructor <;> simp [cancel_remittance_schedule, hauth, hmg, howner]
  · intro auth s caller id sched hauth hmg howner
    constructor <;>
      simp [cancel_remittance_schedule, get_remittance_schedule, hauth, hmg, howner,
        mapGet_mapSet_self]

/-- Witness for C8: modifying a nonexistent schedule ID on the fresh fixture
fails with `ScheduleNotFound` and leaves the (empty) schedules map unchanged. -/
theorem schedule_ops_owner_gated_witness :
    mapGet (stEmpty.schedules.getD []) 7 = none ∧
    (modify_remittance_schedule envA authAll stEmpty 1 7 500 2000 0).fst =
      .err .ScheduleNotFound ∧
    (modify_remittance_schedule envA authAll stEmpty 1 7 500 2000 0).snd.schedules =
      stEmpty.schedules :=
  ⟨by decide,
    (schedule_ops_owner_gated.1 envA authAll stEmpty 1 7 500 2000 0
      (by decide) (by decide) (by decide) (by decide)).1,
    (schedule_ops_owner_gated.1 envA authAll stEmpty 1 7 500 2000 0
      (by decide) (by decide) (by decide) (by decide)).2⟩

/-! ## Claim C9: export/import snapshot round trip -/

lemma get_nonce_value_eq (s : ContractState) (a : Nat) :
    get_nonce_value s a = (mapGet (s.nonces.getD []) a).getD 0 := by
  unfold get_nonce_value
  cases s.nonces <;> simp [mapGet]

/-- Claim C9: for a stored config owned by the caller whose percentages sum
to 100, the snapshot produced by `export_snapshot` carries version
`SNAPSHOT_VERSION = 1` and the checksum computed by `compute_checksum`, and
replaying it through `import_snapshot` with the caller's current nonce
succeeds: import recomputes the same checksum, accepts the snapshot, and
stores back exactly the exported config together with its percentage
vector. -/
theorem export_import_roundtrip (env : Env) (auth : Nat → Bool) (s : ContractState)
    (caller : Nat) (cfg : SplitConfig)
    (hauth : auth caller = true) (hcfg : s.config = some cfg) (howner : cfg.owner = caller)
    (hsum : cfg.spending_percent + cfg.savings_percent + cfg.bills_percent +
      cfg.insurance_percent = 100)
    (hnonce : get_nonce_value s caller < U64_MAX) :
    export_snapshot auth s caller =
      .ok (some ⟨SNAPSHOT_VERSION, compute_checksum SNAPSHOT_VERSION cfg, cfg⟩) ∧
    (import_snapshot env auth s caller (get_nonce_value s caller)
        ⟨SNAPSHOT_VERSION, compute_checksum SNAPSHOT_VERSION cfg, cfg⟩).fst = .ok true ∧
    (import_snapshot env auth s caller (get_nonce_value s caller)
        ⟨SNAPSHOT_VERSION, compute_checksum SNAPSHOT_VERSION cfg, cfg⟩).snd.config =
      some cfg ∧
    (import_snapshot env auth s caller (get_nonce_value s caller)
        ⟨SNAPSHOT_VERSION, compute_checksum SNAPSHOT_VERSION cfg, cfg⟩).snd.split =
      some [cfg.spending_percent, cfg.savings_percent, cfg.bills_percent,
        cfg.insurance_percent] := by
  simp only [get_nonce_value_eq] at hnonce
  refine ⟨by simp [export_snapshot, hauth, hcfg, howner], ?_, ?_, ?_⟩ <;>
    simp [import_snapshot, hauth, hcfg, howner, hsum, increment_nonce_eq,
      get_nonce_value_eq, not_le.mpr hnonce, (by decide : ¬ U32_MAX < 100)]

/-- Witness for C9: the round trip on the initialized fixture `stA` (owner 1,
split 50/30/15/5, stored nonce 1). -/
theorem export_import_roundtrip_witness :
    export_snapshot authAll stA 1 =
      .ok (some ⟨SNAPSHOT_VERSION, compute_checksum SNAPSHOT_VERSION ⟨1, 50, 30, 15, 5, 900, true⟩,
        ⟨1, 50, 30, 15, 5, 900, true⟩⟩) ∧
    (import_snapshot envA authAll stA 1 (get_nonce_value stA 1)
        ⟨SNAPSHOT_VERSION, compute_checksum SNAPSHOT_VERSION ⟨1, 50, 30, 15, 5, 900, true⟩,
          ⟨1, 50, 30, 15, 5, 900, true⟩⟩).fst = .ok true ∧
    (import_snapshot envA authAll stA 1 (get_nonce_value stA 1)
        ⟨SNAPSHOT_VERSION, compute_checksum SNAPSHOT_VERSION ⟨1, 50, 30, 15, 5, 900, true⟩,
          ⟨1, 50, 30, 15, 5, 900, true⟩⟩).snd.config = some ⟨1, 50, 30, 15, 5, 900, true⟩ ∧
    (import_snapshot envA authAll stA 1 (get_nonce_value stA 1)
        ⟨SNAPSHOT_VERSION, compute_checksum SNAPSHOT_VERSION ⟨1, 50, 30, 15, 5, 900, true⟩,
          ⟨1, 50, 30, 15, 5, 900, true⟩⟩).snd.split = some [50, 30, 15, 5] :=
  export_import_roundtrip envA authAll stA 1 ⟨1, 50, 30, 15, 5, 900, true⟩
    (by decide) (by decide) (by decide) (by decide) (by decide)

/-! ## Claim C7: capped cursor-based pagination of the audit log -/

lemma filterMap_range'_getElem {α : Type} (log : List α) (k : Nat) :
    ∀ f, f + k ≤ log.length →
      (List.range' f k).filterMap (fun i => log[i]?) = (log.drop f).take k := by
  induction k with
  | zero => simp
  | succ k ih =>
    intro f h
    have hf : f < log.length := by omega
    rw [List.range'_succ]
    simp only [List.filterMap_cons, List.getElem?_eq_getElem hf]
    rw [ih (f + 1) (by omega), List.drop_eq_getElem_cons hf, List.take_succ_cons]

/-- Claim C7: `get_audit_log from_index limit` pages through the stored audit
log with `from_index` as cursor: it returns the consecutive entries starting
at `from_index`, capped at `min(MAX_AUDIT_ENTRIES, limit)` of them (so at
most `min(limit, 100)` and never an entry past the end of the log), and
returns the empty list when `from_index` is at or past the log's length. -/
theorem get_audit_log_pagination :
    ∀ s from_index limit,
      get_audit_log s from_index limit =
        ((s.audit.getD []).drop from_index).take (min MAX_AUDIT_ENTRIES limit) ∧
      (get_audit_log s from_index limit).length ≤ min limit MAX_AUDIT_ENTRIES ∧
      ((s.audit.getD []).length ≤ from_index → get_audit_log s from_index limit = []) := by
  intro s f l
  have hmain : get_audit_log s f l =
      ((s.audit.getD []).drop f).take (min MAX_AUDIT_ENTRIES l) := by
    unfold get_audit_log
    simp only []
    by_cases hf : (s.audit.getD []).length ≤ f
    · rw [if_pos hf, List.drop_eq_nil_of_le hf, List.take_nil]
    · rw [if_neg hf]
      push_neg at hf
      rw [filterMap_range'_getElem (s.audit.getD []) _ f (by omega)]
      rw [List.take_eq_take]
      simp only [List.length_drop]
      omega
  refine ⟨hmain, ?_, ?_⟩
  · rw [hmain]
    simp only [List.length_take, List.length_drop]
    omega
  · intro hle
    rw [hmain, List.drop_eq_nil_of_le hle, List.take_nil]

/-- Witness for C7: pagination applied at concrete arguments on the fixture
state (whose audit log is empty), at cursor 3 past the end. -/
theorem get_audit_log_pagination_witness :
    get_audit_log stA 3 7 = ((stA.audit.getD []).drop 3).take (min MAX_AUDIT_ENTRIES 7) ∧
    (get_audit_log stA 3 7).length ≤ min 7 MAX_AUDIT_ENTRIES ∧
    ((stA.audit.getD []).length ≤ 3 → get_audit_log stA 3 7 = []) :=
  get_audit_log_pagination stA 3 7

/-! ## Claim C3: exact split amounts with remainder in insurance -/

lemma checked_mul_of_bounds (a b : Int) (h1 : I128_MIN ≤ a * b) (h2 : a * b ≤ I128_MAX) :
    checked_mul a b = some (a * b) := by
  unfold checked_mul
  simp only []
  rw [if_neg (by rintro (hlt | hlt) <;> omega)]

lemma checked_div_100_of_nonneg (a : Int) (h0 : 0 ≤ a) (hM : a ≤ I128_MAX) :
    checked_div a 100 = some (a / 100) := by
  unfold checked_div
  rw [if_neg (by norm_num)]
  simp only []
  rw [Int.tdiv_eq_ediv h0 (by norm_num)]
  have hd0 : 0 ≤ a / 100 := Int.ediv_nonneg h0 (by norm_num)
  have hdle : a / 100 ≤ a := Int.ediv_le_self 100 h0
  have hmin : I128_MIN < 0 := by norm_num [I128_MIN]
  rw [if_neg (by rintro (hlt | hlt) <;> omega)]

lemma checked_sub_of_bounds (a b : Int) (h1 : I128_MIN ≤ a - b) (h2 : a - b ≤ I128_MAX) :
    checked_sub a b = some (a - b) := by
  unfold checked_sub
  simp only []
  rw [if_neg (by rintro (hlt | hlt) <;> omega)]

/-- Claim C3: for a stored split `[p0, p1, p2, p3]` summing to 100 and a
positive `total_amount` (an `i128`) whose products with the first three
percentages stay within `i128`, `calculate_split` returns exactly
`[total_amount * p0 / 100, total_amount * p1 / 100, total_amount * p2 / 100,
total_amount - spending - savings - bills]` (truncated integer division);
all four amounts are nonnegative and sum exactly to `total_amount`, the
insurance slot absorbing the division remainders. -/
theorem calculate_split_exact (s : ContractState) (p0 p1 p2 p3 : Nat) (ta : Int)
    (hs : s.split = some [p0, p1, p2, p3])
    (hsum : p0 + p1 + p2 + p3 = 100)
    (hpos : 0 < ta) (htaMax : ta ≤ I128_MAX)
    (h0 : ta * (p0 : Int) ≤ I128_MAX) (h1 : ta * (p1 : Int) ≤ I128_MAX)
    (h2 : ta * (p2 : Int) ≤ I128_MAX) :
    calculate_split s ta =
      .ok [ta * (p0 : Int) / 100, ta * (p1 : Int) / 100, ta * (p2 : Int) / 100,
        ta - ta * (p0 : Int) / 100 - ta * (p1 : Int) / 100 - ta * (p2 : Int) / 100] ∧
    0 ≤ ta * (p0 : Int) / 100 ∧ 0 ≤ ta * (p1 : Int) / 100 ∧ 0 ≤ ta * (p2 : Int) / 100 ∧
    0 ≤ ta - ta * (p0 : Int) / 100 - ta * (p1 : Int) / 100 - ta * (p2 : Int) / 100 ∧
    ta * (p0 : Int) / 100 + ta * (p1 : Int) / 100 + ta * (p2 : Int) / 100 +
      (ta - ta * (p0 : Int) / 100 - ta * (p1 : Int) / 100 - ta * (p2 : Int) / 100) = ta := by
  have hmin0 : I128_MIN ≤ 0 := by norm_num [I128_MIN]
  have hA0 : 0 ≤ ta * (p0 : Int) := mul_nonneg hpos.le (Int.natCast_nonneg p0)
  have hA1 : 0 ≤ ta * (p1 : Int) := mul_nonneg hpos.le (Int.natCast_nonneg p1)
  have hA2 : 0 ≤ ta * (p2 : Int) := mul_nonneg hpos.le (Int.natCast_nonneg p2)
  have hple : (p0 : Int) + (p1 : Int) + (p2 : Int) ≤ 100 := by
    have : p0 + p1 + p2 ≤ 100 := by omega
    exact_mod_cast this
  have hsum3 : ta * (p0 : Int) + ta * (p1 : Int) + ta * (p2 : Int) ≤ 100 * ta := by
    have hmul : ta * ((p0 : Int) + (p1 : Int) + (p2 : Int)) ≤ ta * 100 :=
      mul_le_mul_of_nonneg_left hple hpos.le
    nlinarith
  have e0 : checked_mul ta (p0 : Int) = some (ta * (p0 : Int)) :=
    checked_mul_of_bounds _ _ (le_trans hmin0 hA0) h0
  have e1 : checked_mul ta (p1 : Int) = some (ta * (p1 : Int)) :=
    checked_mul_of_bounds _ _ (le_trans hmin0 hA1) h1
  have e2 : checked_mul ta (p2 : Int) = some (ta * (p2 : Int)) :=
    checked_mul_of_bounds _ _ (le_trans hmin0 hA2) h2
  have d0 : checked_div (ta * (p0 : Int)) 100 = some (ta * (p0 : Int) / 100) :=
    checked_div_100_of_nonneg _ hA0 h0
  have d1 : checked_div (ta * (p1 : Int)) 100 = some (ta * (p1 : Int) / 100) :=
    checked_div_100_of_nonneg _ hA1 h1
  have d2 : checked_div (ta * (p2 : Int)) 100 = some (ta * (p2 : Int) / 100) :=
    checked_div_100_of_nonneg _ hA2 h2
  have hsp : 0 ≤ ta * (p0 : Int) / 100 ∧ 0 ≤ ta * (p1 : Int) / 100 ∧
      0 ≤ ta * (p2 : Int) / 100 ∧
      ta * (p0 : Int) / 100 + ta * (p1 : Int) / 100 + ta * (p2 : Int) / 100 ≤ ta := by
    omega
  obtain ⟨hsp0, hsp1, hsp2, hsple⟩ := hsp
  have c0 : checked_sub ta (ta * (p0 : Int) / 100) =
      some (ta - ta * (p0 : Int) / 100) :=
    checked_sub_of_bounds _ _ (by omega) (by omega)
  have c1 : checked_sub (ta - ta * (p0 : Int) / 100) (ta * (p1 : Int) / 100) =
      some (ta - ta * (p0 : Int) / 100 - ta * (p1 : Int) / 100) :=
    checked_sub_of_bounds _ _ (by omega) (by omega)
  have c2 : checked_sub (ta - ta * (p0 : Int) / 100 - ta * (p1 : Int) / 100)
        (ta * (p2 : Int) / 100) =
      some (ta - ta * (p0 : Int) / 100 - ta * (p1 : Int) / 100 - ta * (p2 : Int) / 100) :=
    checked_sub_of_bounds _ _ (by omega) (by omega)
  refine ⟨?_, hsp0, hsp1, hsp2, by omega, by ring⟩
  simp only [calculate_split, calculate_split_amounts, get_split, hs, Option.getD_some,
    if_neg (not_le.mpr hpos), List.getElem?_cons_zero, List.getElem?_cons_succ,
    e0, e1, e2, d0, d1, d2, c0, c1, c2, Option.some_bind]

/-- Witness for C3: the exact split of 1000 under the stored 40/30/20/10
split of fixture `stB`. -/
theorem calculate_split_exact_witness :
    calculate_split stB 1000 =
      .ok [1000 * ((40 : Nat) : Int) / 100, 1000 * ((30 : Nat) : Int) / 100,
        1000 * ((20 : Nat) : Int) / 100,
        1000 - 1000 * ((40 : Nat) : Int) / 100 - 1000 * ((30 : Nat) : Int) / 100 -
          1000 * ((20 : Nat) : Int) / 100] ∧
    0 ≤ 1000 * ((40 : Nat) : Int) / 100 ∧ 0 ≤ 1000 * ((30 : Nat) : Int) / 100 ∧
    0 ≤ 1000 * ((20 : Nat) : Int) / 100 ∧
    0 ≤ 1000 - 1000 * ((40 : Nat) : Int) / 100 - 1000 * ((30 : Nat) : Int) / 100 -
      1000 * ((20 : Nat) : Int) / 100 ∧
    1000 * ((40 : Nat) : Int) / 100 + 1000 * ((30 : Nat) : Int) / 100 +
      1000 * ((20 : Nat) : Int) / 100 +
      (1000 - 1000 * ((40 : Nat) : Int) / 100 - 1000 * ((30 : Nat) : Int) / 100 -
        1000 * ((20 : Nat) : Int) / 100) = 1000 :=
  calculate_split_exact stB 40 30 20 10 1000 (by decide) (by decide) (by decide)
    (by norm_num [I128_MAX]) (by norm_num [I128_MAX]) (by norm_num [I128_MAX])
    (by norm_num [I128_MAX])

/-! ## Claim C10: the audit log never exceeds MAX_AUDIT_ENTRIES -/

/-- Length of the stored audit log. -/
def audit_len (s : ContractState) : Nat := (s.audit.getD []).length

lemma audit_len_append_le (env : Env) (s : ContractState) (op : String) (c : Nat) (b : Bool)
    (h : audit_len s ≤ MAX_AUDIT_ENTRIES) :
    audit_len (append_audit env s op c b) ≤ MAX_AUDIT_ENTRIES := by
  have haud : (append_audit env s op c b).audit =
      some ((if MAX_AUDIT_ENTRIES ≤ (s.audit.getD []).length then (s.audit.getD []).drop 1
        else s.audit.getD []) ++ [⟨op, c, env.timestamp, b⟩]) := rfl
  unfold audit_len at h ⊢
  rw [haud]
  simp only [Option.getD_some, List.length_append]
  split <;>
    simp only [List.length_drop, List.length_cons, List.length_nil] <;>
    simp only [MAX_AUDIT_ENTRIES] at * <;> omega

/-- Claim C10: `append_audit` drops the oldest entry before pushing once the
log has reached `MAX_AUDIT_ENTRIES = 100` and therefore preserves the bound
`audit_len ≤ 100`; every mutating contract operation (each entry point that
writes storage) preserves that bound as well, on success and on audited
failure alike. -/
theorem audit_log_bounded :
    (∀ env s op c b, (s.audit.getD []).length = MAX_AUDIT_ENTRIES →
      (append_audit env s op c b).audit =
        some (((s.audit.getD []).drop 1) ++ [⟨op, c, env.timestamp, b⟩])) ∧
    (∀ env s op c b, audit_len s ≤ MAX_AUDIT_ENTRIES →
      audit_len (append_audit env s op c b) ≤ MAX_AUDIT_ENTRIES) ∧
    (∀ env auth s owner nonce a b c d, audit_len s ≤ MAX_AUDIT_ENTRIES →
      audit_len (initialize_split env auth s owner nonce a b c d).snd ≤ MAX_AUDIT_ENTRIES) ∧
    (∀ env auth s caller nonce a b c d, audit_len s ≤ MAX_AUDIT_ENTRIES →
      audit_len (update_split env auth s caller nonce a b c d).snd ≤ MAX_AUDIT_ENTRIES) ∧
    (∀ env auth s usdc sender nonce accounts total_amount, audit_len s ≤ MAX_AUDIT_ENTRIES →
      audit_len (distribute_usdc env auth s usdc sender nonce accounts total_amount).2.1 ≤
        MAX_AUDIT_ENTRIES) ∧
    (∀ env auth s caller nonce snapshot, audit_len s ≤ MAX_AUDIT_ENTRIES →
      audit_len (import_snapshot env auth s caller nonce snapshot).snd ≤ MAX_AUDIT_ENTRIES) ∧
    (∀ env auth s owner amount next_due interval, audit_len s ≤ MAX_AUDIT_ENTRIES →
      audit_len (create_remittance_schedule env auth s owner amount next_due interval).snd ≤
        MAX_AUDIT_ENTRIES) ∧
    (∀ env auth s caller id amount next_due interval, audit_len s ≤ MAX_AUDIT_ENTRIES →
      audit_len (modify_remittance_schedule env auth s caller id amount next_due interval).snd ≤
        MAX_AUDIT_ENTRIES) ∧
    (∀ auth s caller id, audit_len s ≤ MAX_AUDIT_ENTRIES →
      audit_len (cancel_remittance_schedule auth s caller id).snd ≤ MAX_AUDIT_ENTRIES) ∧
    (∀ auth s caller, audit_len s ≤ MAX_AUDIT_ENTRIES →
      audit_len (pause auth s caller).snd ≤ MAX_AUDIT_ENTRIES) ∧
    (∀ auth s caller, audit_len s ≤ MAX_AUDIT_ENTRIES →
      audit_len (unpause auth s caller).snd ≤ MAX_AUDIT_ENTRIES) ∧
    (∀ auth s caller v, audit_len s ≤ MAX_AUDIT_ENTRIES →
      audit_len (set_version auth s caller v).snd ≤ MAX_AUDIT_ENTRIES) ∧
    (∀ auth s caller a, audit_len s ≤ MAX_AUDIT_ENTRIES →
      audit_len (set_pause_admin auth s caller a).snd ≤ MAX_AUDIT_ENTRIES) ∧
    (∀ auth s caller a, audit_len s ≤ MAX_AUDIT_ENTRIES →
      audit_len (set_upgrade_admin auth s caller a).snd ≤ MAX_AUDIT_ENTRIES) := by
  refine ⟨?_, audit_len_append_le, ?_, ?_, ?_, ?_, ?_, ?_, ?_, ?_, ?_, ?_, ?_, ?_⟩
  · intro env s op c b hfull
    unfold append_audit
    simp only []
    rw [if_pos (by omega)]
  · intro env auth s owner nonce a b c d hinv
    unfold initialize_split
    simp only []
    split
    case isFalse => exact hinv
    split
    case isTrue => exact hinv
    split
    case isTrue => exact hinv
    split
    case isTrue => exact audit_len_append_le _ _ _ _ _ hinv
    split
    case isTrue => exact hinv
    split
    case isTrue => exact audit_len_append_le _ _ _ _ _ hinv
    split
    case h_1 => simpa [audit_len] using hinv
    rename_i s3 heq
    have h3 := increment_nonce_ok _ _ _ heq
    subst h3
    apply audit_len_append_le
    simpa [audit_len] using hinv
  · intro env auth s caller nonce a b c d hinv
    unfold update_split
    simp only []
    split
    case isFalse => exact hinv
    split
    case isTrue => exact hinv
    split
    case isTrue => exact hinv
    split
    case h_1 => exact hinv
    split
    case isTrue => exact audit_len_append_le _ _ _ _ _ hinv
    split
    case isTrue => exact hinv
    split
    case isTrue => exact audit_len_append_le _ _ _ _ _ hinv
    simpa [audit_len] using hinv
  · intro env auth s usdc sender nonce accounts total_amount hinv
    unfold distribute_usdc
    simp only []
    split
    case isTrue => exact audit_len_append_le _ _ _ _ _ hinv
    split
    case isFalse => exact hinv
    split
    case isTrue => exact hinv
    split
    case h_1 => exact hinv
    case h_2 => exact hinv
    split
    case h_1 => exact hinv
    rename_i s3 heq
    have h3 := increment_nonce_ok _ _ _ heq
    subst h3
    apply audit_len_append_le
    simpa [audit_len] using hinv
  · intro env auth s caller nonce snapshot hinv
    unfold import_snapshot
    simp only []
    split
    case isFalse => exact hinv
    split
    case isTrue => exact hinv
    split
    case isTrue => exact audit_len_append_le _ _ _ _ _ hinv
    split
    case isTrue => exact audit_len_append_le _ _ _ _ _ hinv
    split
    case h_1 => exact hinv
    split
    case isTrue => exact audit_len_append_le _ _ _ _ _ hinv
    split
    case isTrue => exact hinv
    split
    case isTrue => exact audit_len_append_le _ _ _ _ _ hinv
    split
    case h_1 => simpa [audit_len] using hinv
    rename_i s3 heq
    have h3 := increment_nonce_ok _ _ _ heq
    subst h3
    apply audit_len_append_le
    simpa [audit_len] using hinv
  · intro env auth s owner amount next_due interval hinv
    unfold create_remittance_schedule
    simp only []
    split
    case isFalse => exact hinv
    split
    case isTrue => exact hinv
    split
    case isTrue => exact hinv
    split
    case isTrue => simpa [audit_len] using hinv
    simpa [audit_len] using hinv
  · intro env auth s caller id amount next_due interval hinv
    unfold modify_remittance_schedule
    simp only []
    split
    case isFalse => exact hinv
    split
    case isTrue => exact hinv
    split
    case isTrue => exact hinv
    split
    case h_1 => simpa [audit_len] using hinv
    split
    case isTrue => simpa [audit_len] using hinv
    simpa [audit_len] using hinv
  · intro auth s caller id hinv
    unfold cancel_remittance_schedule
    simp only []
    split
    case isFalse => exact hinv
    split
    case h_1 => simpa [audit_len] using hinv
    split
    case isTrue => simpa [audit_len] using hinv
    simpa [audit_len] using hinv
  · intro auth s caller hinv
    unfold pause
    simp only []
    split
    case isFalse => exact hinv
    split
    case h_1 => exact hinv
    split
    case isTrue => exact hinv
    simpa [audit_len] using hinv
  · intro auth s caller hinv
    unfold unpause
    simp only []
    split
    case isFalse => exact hinv
    split
    case h_1 => exact hinv
    split
    case isTrue => exact hinv
    simpa [audit_len] using hinv
  · intro auth s caller v hinv
    unfold set_version
    simp only []
    split
    case isFalse => exact hinv
    split
    case h_1 => exact hinv
    split
    case isTrue => exact hinv
    simpa [audit_len] using hinv
  · intro auth s caller a hinv
    unfold set_pause_admin
    split
    case isFalse => exact hinv
    split
    case h_1 => exact hinv
    split
    case isTrue => exact hinv
    simpa [audit_len] using hinv
  · intro auth s caller a hinv
    unfold set_upgrade_admin
    split
    case isFalse => exact hinv
    split
    case h_1 => exact hinv
    split
    case isTrue => exact hinv
    simpa [audit_len] using hinv

/-- Witness for C10: `initialize_split` on the fresh fixture state keeps the
audit log within the 100-entry bound. -/
theorem audit_log_bounded_witness :
    audit_len stEmpty ≤ MAX_AUDIT_ENTRIES ∧
    audit_len (initialize_split envA authAll stEmpty 1 0 50 30 15 5).snd ≤
      MAX_AUDIT_ENTRIES :=
  ⟨by decide, audit_log_bounded.2.2.1 envA authAll stEmpty 1 0 50 30 15 5 (by decide)⟩

end RemittanceSplit
